import Mathlib

/-!
# Chat session controller of the ia-ju client

A shallow embedding of the chat controller found in
`src/frontend/src/App.jsx` and of the second variant of the same component
embedded after the Docker directives in `src/Dockerfile`.

The React component state (`messages`, `input`, `isLoading`,
`selectedFile`) is an explicit structure. Each event handler
(`sendMessage`, `handleKeyDown`, the send button, `handleFileChange`) is
embedded as the finite trace of primitive effects it performs in program
order: state-setter calls and the outgoing HTTP POST. The outcome of the
`fetch` call is a parameter, so one trace covers a whole resolved turn.
JavaScript values that can reach a message `text` field (the parsed
`data.response`, which may be absent and therefore `undefined`) are
modelled by a small value type `JVal`.
-/

namespace IaJu

/-- The `sender` field of a chat message: `user` or `bot`. -/
inductive Sender where
  | user
  | bot
  deriving DecidableEq

/-- A JavaScript value as it can appear in a parsed JSON body or in the
`text` field of a message: `data.response` may be a string, some other
JSON value, or `undefined` when the field is absent. -/
inductive JVal where
  | str (s : String)
  | num (n : Int)
  | boolVal (b : Bool)
  | jnull
  | undef
  deriving DecidableEq

/-- One element of the `messages` state array, the object
`\x7b sender, text \x7d` built by `sendMessage`. -/
structure ChatEntry where
  sender : Sender
  text : JVal
  deriving DecidableEq

/-- The React state of the `App` component: `messages`, `input`,
`isLoading`, and `selectedFile` (modelled by the name of the selected
file, `none` when no file was chosen). -/
structure AppState where
  messages : List ChatEntry
  input : String
  isLoading : Bool
  selectedFile : Option String
  deriving DecidableEq

/-- Outcome of the `fetch` call as observed by `sendMessage`: either the
promise rejects (network failure), or a response arrives carrying an HTTP
status and a body that parses to a JSON object (a finite association list
from field names to values) or fails to parse, in which case
`response.json()` rejects (`none`). -/
inductive FetchResult where
  | fetchError
  | response (status : Nat) (body : Option (List (String × JVal)))
  deriving DecidableEq

/-- `Response.ok` of the fetch API: the status is in the range 200..299. -/
def httpOk (status : Nat) : Bool :=
  decide (200 ≤ status) && decide (status < 300)

/-- JavaScript property access `data.response` on a parsed JSON object:
the stored value, or `undefined` when the field is absent. -/
def getField (obj : List (String × JVal)) (field : String) : JVal :=
  match obj.find? (fun p => p.1 == field) with
  | some p => p.2
  | none => JVal.undef

/-- JavaScript `String.prototype.trim` as used by the guard
`!input.trim()`: removes leading and trailing whitespace. Implemented by
structural recursion on the character list so that concrete instances
evaluate inside the kernel. -/
def jsTrim (s : String) : String :=
  String.mk
    (((s.data.dropWhile Char.isWhitespace).reverse.dropWhile
        Char.isWhitespace).reverse)

/-- The fixed assistant-facing failure text appended in the `catch`
block. Both source variants contain this identical literal. -/
def serverErrorText : String :=
  "Desculpe, ocorreu um erro ao se conectar com o servidor."

/-- A primitive effect performed by an event handler: a React state
setter call, or the outgoing HTTP POST (`fetchChat` records the endpoint
URL, the request-body field name and the field value). -/
inductive Action where
  | appendMessage (e : ChatEntry)
  | setInput (v : String)
  | setIsLoading (b : Bool)
  | fetchChat (url : String) (field : String) (value : String)
  | setSelectedFile (name : String)
  deriving DecidableEq

/-- Recognizes the `setInput` action. -/
def Action.isSetInput : Action → Bool
  | Action.setInput _ => true
  | Action.appendMessage _ => false
  | Action.setIsLoading _ => false
  | Action.fetchChat _ _ _ => false
  | Action.setSelectedFile _ => false

/-- `sendMessage` of `src/frontend/src/App.jsx`, lines 39..77, as the
trace of effects of one call given the outcome of its `fetch`: guard
`!input.trim()`; append `\x7b sender: user, text: input \x7d` (the raw
`input`, only the guard trims); `setInput` of the empty string;
`setIsLoading(true)`; POST `/api/chat` with body field `user_message`
holding `userMessage.text`, which is the raw `input`; if the response is
not ok, or `fetch` or `response.json()` rejected, the `catch` block
appends the fixed error message; otherwise the bot message
`\x7b sender: bot, text: data.response \x7d` is appended; the `finally`
block runs `setIsLoading(false)`. -/
def sendMessageTrace (input : String) (fetch : FetchResult) : List Action :=
  if jsTrim input = "" then []
  else
    let userMessage : ChatEntry := ⟨Sender.user, JVal.str input⟩
    [Action.appendMessage userMessage, Action.setInput "",
     Action.setIsLoading true,
     Action.fetchChat "/api/chat" "user_message" input] ++
    (match fetch with
     | FetchResult.fetchError =>
         [Action.appendMessage ⟨Sender.bot, JVal.str serverErrorText⟩]
     | FetchResult.response status body =>
         if httpOk status then
           match body with
           | none =>
               [Action.appendMessage ⟨Sender.bot, JVal.str serverErrorText⟩]
           | some obj =>
               [Action.appendMessage ⟨Sender.bot, getField obj "response"⟩]
         else
           [Action.appendMessage ⟨Sender.bot, JVal.str serverErrorText⟩]) ++
    [Action.setIsLoading false]

/-- `sendMessage` of the variant embedded in `src/Dockerfile`, lines
37..70. Identical to the `App.jsx` variant except for the endpoint
(`http://localhost:8000/chat` instead of `/api/chat`) and the
request-body field (`message`, holding the raw `input`). -/
def sendMessageTraceDocker (input : String) (fetch : FetchResult) : List Action :=
  if jsTrim input = "" then []
  else
    let userMessage : ChatEntry := ⟨Sender.user, JVal.str input⟩
    [Action.appendMessage userMessage, Action.setInput "",
     Action.setIsLoading true,
     Action.fetchChat "http://localhost:8000/chat" "message" input] ++
    (match fetch with
     | FetchResult.fetchError =>
         [Action.appendMessage ⟨Sender.bot, JVal.str serverErrorText⟩]
     | FetchResult.response status body =>
         if httpOk status then
           match body with
           | none =>
               [Action.appendMessage ⟨Sender.bot, JVal.str serverErrorText⟩]
           | some obj =>
               [Action.appendMessage ⟨Sender.bot, getField obj "response"⟩]
         else
           [Action.appendMessage ⟨Sender.bot, JVal.str serverErrorText⟩]) ++
    [Action.setIsLoading false]

/-- Effect of one primitive action on the component state. `fetchChat`
performs the HTTP call and does not change component state. The React
setter calls use functional updaters (`prevMessages => [...]`), so
successive appends compose as list appends. -/
def applyAction (s : AppState) (a : Action) : AppState :=
  match a with
  | Action.appendMessage e => { s with messages := s.messages ++ [e] }
  | Action.setInput v => { s with input := v }
  | Action.setIsLoading b => { s with isLoading := b }
  | Action.fetchChat _ _ _ => s
  | Action.setSelectedFile n => { s with selectedFile := some n }

/-- Apply a trace of actions in program order. -/
def applyTrace (s : AppState) : List Action → AppState
  | [] => s
  | a :: rest => applyTrace (applyAction s a) rest

/-- State after a full `sendMessage` call of the `App.jsx` variant that
resolves with outcome `fetch`. -/
def runSendMessage (s : AppState) (fetch : FetchResult) : AppState :=
  applyTrace s (sendMessageTrace s.input fetch)

/-- `handleKeyDown` of `App.jsx`, lines 85..89: calls `sendMessage` only
when the pressed key is Enter and `isLoading` is false. -/
def handleKeyDownTrace (key : String) (s : AppState)
    (fetch : FetchResult) : List Action :=
  if key == "Enter" && !s.isLoading then sendMessageTrace s.input fetch
  else []

/-- The send button of `App.jsx`, lines 188..196: `onClick` runs
`sendMessage`, but the button carries `disabled=\x7bisLoading\x7d`, and a
disabled button fires no click event, so `sendMessage` runs only while
not loading. -/
def buttonClickTrace (s : AppState) (fetch : FetchResult) : List Action :=
  if s.isLoading then [] else sendMessageTrace s.input fetch

/-- `handleFileChange` of `App.jsx`, lines 97..105: reads
`event.target.files[0]` (modelled by the list of selected file names) and,
when a file is present, stores it via `setSelectedFile`. Nothing else
happens; the upload logic is a comment in the source. -/
def handleFileChangeTrace (files : List String) : List Action :=
  match files with
  | [] => []
  | f :: _ => [Action.setSelectedFile f]

/-- A user-level operation on the running component: a key press in the
text input (with the fetch outcome its turn would observe), a click on
the send button, an edit of the pending input (the text input
`onChange`), or a file-selection event. -/
inductive Op where
  | keyDown (key : String) (fetch : FetchResult)
  | buttonClick (fetch : FetchResult)
  | editInput (v : String)
  | fileChange (files : List String)

/-- Effect of one operation on the component state; submit operations
include the resolution of the gateway call they start. -/
def step (s : AppState) (op : Op) : AppState :=
  match op with
  | Op.keyDown key fetch => applyTrace s (handleKeyDownTrace key s fetch)
  | Op.buttonClick fetch => applyTrace s (buttonClickTrace s fetch)
  | Op.editInput v => { s with input := v }
  | Op.fileChange files => applyTrace s (handleFileChangeTrace files)

/-- Run a sequence of operations. -/
def runOps (s : AppState) : List Op → AppState
  | [] => s
  | op :: rest => runOps (step s op) rest

/-- Failure of the gateway call as `sendMessage` sees it: the `fetch`
promise rejected, the status is not ok, or the body failed to parse. -/
def FetchResult.isFailure : FetchResult → Bool
  | FetchResult.fetchError => true
  | FetchResult.response status body => !httpOk status || body.isNone

/-- Rewrites the single POST of the `App.jsx` variant to the endpoint and
body field of the `Dockerfile` variant, leaving every other action
unchanged. -/
def renameFetch : Action → Action
  | Action.fetchChat _ _ v =>
      Action.fetchChat "http://localhost:8000/chat" "message" v
  | Action.appendMessage e => Action.appendMessage e
  | Action.setInput v => Action.setInput v
  | Action.setIsLoading b => Action.setIsLoading b
  | Action.setSelectedFile n => Action.setSelectedFile n

/-! ## Helper lemmas -/

/-- Every primitive action leaves `messages` unchanged or appends to it. -/
theorem applyAction_messages (s : AppState) (a : Action) :
    ∃ u, (applyAction s a).messages = s.messages ++ u := by
  cases a with
  | appendMessage e => exact ⟨[e], rfl⟩
  | setInput v => exact ⟨[], by simp [applyAction]⟩
  | setIsLoading b => exact ⟨[], by simp [applyAction]⟩
  | fetchChat u f v => exact ⟨[], by simp [applyAction]⟩
  | setSelectedFile n => exact ⟨[], by simp [applyAction]⟩

/-- A whole trace only ever appends to `messages`. -/
theorem applyTrace_messages (tr : List Action) (s : AppState) :
    ∃ u, (applyTrace s tr).messages = s.messages ++ u := by
  induction tr generalizing s with
  | nil => exact ⟨[], by simp [applyTrace]⟩
  | cons a rest ih =>
      obtain ⟨u, hu⟩ := applyAction_messages s a
      obtain ⟨w, hw⟩ := ih (applyAction s a)
      exact ⟨u ++ w, by simp only [applyTrace, hw, hu, List.append_assoc]⟩

/-- Every user-level operation only ever appends to `messages`. -/
theorem step_messages (s : AppState) (op : Op) :
    ∃ u, (step s op).messages = s.messages ++ u := by
  cases op with
  | keyDown key fetch => exact applyTrace_messages _ s
  | buttonClick fetch => exact applyTrace_messages _ s
  | editInput v => exact ⟨[], by simp [step]⟩
  | fileChange files => exact applyTrace_messages _ s

/-- A sequence of operations only ever appends to `messages`. -/
theorem runOps_messages (ops : List Op) (s : AppState) :
    ∃ u, (runOps s ops).messages = s.messages ++ u := by
  induction ops generalizing s with
  | nil => exact ⟨[], by simp [runOps]⟩
  | cons op rest ih =>
      obtain ⟨u, hu⟩ := step_messages s op
      obtain ⟨w, hw⟩ := ih (step s op)
      exact ⟨u ++ w, by simp only [runOps, hw, hu, List.append_assoc]⟩

/-- Running a concatenation of operation sequences runs them in order. -/
theorem runOps_append (l1 l2 : List Op) (s : AppState) :
    runOps s (l1 ++ l2) = runOps (runOps s l1) l2 := by
  induction l1 generalizing s with
  | nil => simp [runOps]
  | cons op rest ih =>
      simp only [List.cons_append, runOps]
      exact ih (step s op)

/-- Shape of any resolved valid turn: the transcript gains the user entry
(with the raw input as text) and then one bot entry, and `isLoading` ends
false. -/
theorem turn_shape (s : AppState) (fetch : FetchResult)
    (h : jsTrim s.input ≠ "") :
    ∃ t : JVal,
      (runSendMessage s fetch).messages =
        s.messages ++ [⟨Sender.user, JVal.str s.input⟩, ⟨Sender.bot, t⟩] ∧
      (runSendMessage s fetch).isLoading = false := by
  unfold runSendMessage sendMessageTrace
  cases fetch with
  | fetchError =>
      exact ⟨JVal.str serverErrorText,
        by simp [h, applyTrace, applyAction],
        by simp [h, applyTrace, applyAction]⟩
  | response status body =>
      cases hok : httpOk status with
      | true =>
          cases body with
          | none =>
              exact ⟨JVal.str serverErrorText,
                by simp [h, hok, applyTrace, applyAction],
                by simp [h, hok, applyTrace, applyAction]⟩
          | some obj =>
              exact ⟨getField obj "response",
                by simp [h, hok, applyTrace, applyAction],
                by simp [h, hok, applyTrace, applyAction]⟩
      | false =>
          exact ⟨JVal.str serverErrorText,
            by simp [h, hok, applyTrace, applyAction],
            by simp [h, hok, applyTrace, applyAction]⟩

/-- Shape of any resolved failing turn: the bot entry carries the fixed
error text. -/
theorem turn_failure (s : AppState) (fetch : FetchResult)
    (h : jsTrim s.input ≠ "") (hf : fetch.isFailure = true) :
    (runSendMessage s fetch).messages =
      s.messages ++ [⟨Sender.user, JVal.str s.input⟩,
                     ⟨Sender.bot, JVal.str serverErrorText⟩] ∧
    (runSendMessage s fetch).isLoading = false := by
  unfold runSendMessage sendMessageTrace
  cases fetch with
  | fetchError =>
      constructor <;> simp [h, applyTrace, applyAction]
  | response status body =>
      cases hok : httpOk status with
      | true =>
          have hb : body = none := by
            cases body with
            | none => rfl
            | some obj => simp [FetchResult.isFailure, hok] at hf
          subst hb
          constructor <;> simp [h, hok, applyTrace, applyAction]
      | false =>
          constructor <;> simp [h, hok, applyTrace, applyAction]

/-- Renaming the POST target does not change the effect of an action on
component state. -/
theorem applyAction_renameFetch (s : AppState) (a : Action) :
    applyAction s (renameFetch a) = applyAction s a := by
  cases a <;> rfl

/-- Renaming the POST target of every action of a trace does not change
the resulting state. -/
theorem applyTrace_renameFetch (tr : List Action) (s : AppState) :
    applyTrace s (tr.map renameFetch) = applyTrace s tr := by
  induction tr generalizing s with
  | nil => rfl
  | cons a rest ih =>
      simp only [List.map_cons, applyTrace, applyAction_renameFetch]
      exact ih (applyAction s a)

/-! ## Claims -/

/-- Claim C1, counterexample: for input `Hello` and an HTTP 200 response
whose JSON body parses to an object with no `response` field, the turn
ends with a bot entry whose text is the JavaScript `undefined`, not the
fixed assistant-facing error entry; nothing throws, so the catch block
never runs. -/
theorem C1_counterexample :
    httpOk 200 = true ∧
    (runSendMessage ⟨[], "Hello", false, none⟩
        (FetchResult.response 200 (some []))).messages =
      [⟨Sender.user, JVal.str "Hello"⟩, ⟨Sender.bot, JVal.undef⟩] ∧
    JVal.undef ≠ JVal.str serverErrorText := by decide

/-- Claim C1, amended: on an HTTP-success response whose body parses, the
appended assistant entry carries exactly the value of the body field
`response` — the JavaScript `undefined` when the field is absent, the raw
value when it has another type — rather than the fixed error entry. -/
theorem C1_success_reply_passthrough (s : AppState) (status : Nat)
    (obj : List (String × JVal)) (h : jsTrim s.input ≠ "")
    (hok : httpOk status = true) :
    (runSendMessage s (FetchResult.response status (some obj))).messages =
      s.messages ++ [⟨Sender.user, JVal.str s.input⟩,
                     ⟨Sender.bot, getField obj "response"⟩] := by
  unfold runSendMessage sendMessageTrace
  simp [h, hok, applyTrace, applyAction]

/-- Witness for the amended C1 at input `Hi`, status 200, and a body whose
`response` field holds the number 7 (a wrong-typed reply). -/
theorem C1_success_reply_passthrough_witness :
    (runSendMessage ⟨[], "Hi", false, none⟩
        (FetchResult.response 200 (some [("response", JVal.num 7)]))).messages =
      [⟨Sender.user, JVal.str "Hi"⟩,
       ⟨Sender.bot, getField [("response", JVal.num 7)] "response"⟩] :=
  C1_success_reply_passthrough ⟨[], "Hi", false, none⟩ 200
    [("response", JVal.num 7)] (by decide) (by decide)

/-- Claim C2, counterexample: for the input with surrounding spaces
whose trim is `Hello`, the appended user entry and the issued POST carry
the raw untrimmed string, not the trimmed one. -/
theorem C2_counterexample :
    jsTrim " Hello " = "Hello" ∧
    (runSendMessage ⟨[], " Hello ", false, none⟩
        FetchResult.fetchError).messages =
      [⟨Sender.user, JVal.str " Hello "⟩,
       ⟨Sender.bot, JVal.str serverErrorText⟩] ∧
    (sendMessageTrace " Hello " FetchResult.fetchError).head? =
      some (Action.appendMessage ⟨Sender.user, JVal.str " Hello "⟩) ∧
    Action.fetchChat "/api/chat" "user_message" " Hello " ∈
      sendMessageTrace " Hello " FetchResult.fetchError ∧
    JVal.str " Hello " ≠ JVal.str "Hello" := by decide

/-- Claim C2, amended: on every valid submit (trim of the input
non-empty) the handler appends a user entry carrying the raw input text,
clears `input`, sets `isLoading`, and issues the POST with the raw input
as the `user_message` field — the trim is used only as the guard. -/
theorem C2_valid_submit_raw_input (s : AppState) (fetch : FetchResult)
    (h : jsTrim s.input ≠ "") :
    (∃ tail : List Action,
      sendMessageTrace s.input fetch =
        Action.appendMessage ⟨Sender.user, JVal.str s.input⟩ ::
        Action.setInput "" ::
        Action.setIsLoading true ::
        Action.fetchChat "/api/chat" "user_message" s.input :: tail) ∧
    applyTrace s
        [Action.appendMessage ⟨Sender.user, JVal.str s.input⟩,
         Action.setInput "", Action.setIsLoading true,
         Action.fetchChat "/api/chat" "user_message" s.input] =
      { s with messages := s.messages ++ [⟨Sender.user, JVal.str s.input⟩],
               input := "", isLoading := true } := by
  refine ⟨?_, rfl⟩
  unfold sendMessageTrace
  cases fetch with
  | fetchError =>
      exact ⟨[Action.appendMessage ⟨Sender.bot, JVal.str serverErrorText⟩,
              Action.setIsLoading false], by simp [h]⟩
  | response status body =>
      cases hok : httpOk status with
      | true =>
          cases body with
          | none =>
              exact ⟨[Action.appendMessage
                        ⟨Sender.bot, JVal.str serverErrorText⟩,
                      Action.setIsLoading false], by simp [h, hok]⟩
          | some obj =>
              exact ⟨[Action.appendMessage
                        ⟨Sender.bot, getField obj "response"⟩,
                      Action.setIsLoading false], by simp [h, hok]⟩
      | false =>
          exact ⟨[Action.appendMessage ⟨Sender.bot, JVal.str serverErrorText⟩,
                  Action.setIsLoading false], by simp [h, hok]⟩

/-- Witness for the amended C2 at the input with surrounding spaces. -/
theorem C2_valid_submit_raw_input_witness :
    (∃ tail : List Action,
      sendMessageTrace " Hi " FetchResult.fetchError =
        Action.appendMessage ⟨Sender.user, JVal.str " Hi "⟩ ::
        Action.setInput "" ::
        Action.setIsLoading true ::
        Action.fetchChat "/api/chat" "user_message" " Hi " :: tail) ∧
    applyTrace ⟨[], " Hi ", false, none⟩
        [Action.appendMessage ⟨Sender.user, JVal.str " Hi "⟩,
         Action.setInput "", Action.setIsLoading true,
         Action.fetchChat "/api/chat" "user_message" " Hi "] =
      ⟨[⟨Sender.user, JVal.str " Hi "⟩], "", true, none⟩ :=
  C2_valid_submit_raw_input ⟨[], " Hi ", false, none⟩
    FetchResult.fetchError (by decide)

/-- Claim C3: on any gateway failure (rejected fetch, non-ok status, or
unparsable body) the transcript ends with the user entry followed by
exactly one bot entry holding the fixed apology string, `isLoading`
returns to false, and a subsequent valid submit runs a normal two-entry
turn from that state — no latched failure. -/
theorem C3_failure_path (s : AppState) (fetch : FetchResult)
    (t2 : String) (fetch2 : FetchResult)
    (h : jsTrim s.input ≠ "") (hf : fetch.isFailure = true)
    (h2 : jsTrim t2 ≠ "") :
    (runSendMessage s fetch).messages =
      s.messages ++ [⟨Sender.user, JVal.str s.input⟩,
                     ⟨Sender.bot, JVal.str serverErrorText⟩] ∧
    (runSendMessage s fetch).isLoading = false ∧
    ∃ r : JVal,
      (runSendMessage { runSendMessage s fetch with input := t2 }
          fetch2).messages =
        (runSendMessage s fetch).messages ++
          [⟨Sender.user, JVal.str t2⟩, ⟨Sender.bot, r⟩] ∧
      (runSendMessage { runSendMessage s fetch with input := t2 }
          fetch2).isLoading = false := by
  obtain ⟨hm, hl⟩ := turn_failure s fetch h hf
  refine ⟨hm, hl, ?_⟩
  have h2' : jsTrim ({ runSendMessage s fetch with input := t2 } :
      AppState).input ≠ "" := h2
  obtain ⟨r, hm2, hl2⟩ := turn_shape _ fetch2 h2'
  exact ⟨r, hm2, hl2⟩

/-- Witness for C3: a network failure on `Hello`, then a successful
submit of `Again`. -/
theorem C3_failure_path_witness :
    (runSendMessage ⟨[], "Hello", false, none⟩
        FetchResult.fetchError).messages =
      [⟨Sender.user, JVal.str "Hello"⟩,
       ⟨Sender.bot, JVal.str serverErrorText⟩] ∧
    (runSendMessage ⟨[], "Hello", false, none⟩
        FetchResult.fetchError).isLoading = false ∧
    ∃ r : JVal,
      (runSendMessage
          { runSendMessage ⟨[], "Hello", false, none⟩
              FetchResult.fetchError with input := "Again" }
          (FetchResult.response 200
            (some [("response", JVal.str "ok")]))).messages =
        (runSendMessage ⟨[], "Hello", false, none⟩
            FetchResult.fetchError).messages ++
          [⟨Sender.user, JVal.str "Again"⟩, ⟨Sender.bot, r⟩] ∧
      (runSendMessage
          { runSendMessage ⟨[], "Hello", false, none⟩
              FetchResult.fetchError with input := "Again" }
          (FetchResult.response 200
            (some [("response", JVal.str "ok")]))).isLoading = false :=
  C3_failure_path ⟨[], "Hello", false, none⟩ FetchResult.fetchError
    "Again" (FetchResult.response 200 (some [("response", JVal.str "ok")]))
    (by decide) (by decide) (by decide)

/-- Claim C4: every resolved valid turn grows the transcript by exactly
two entries — the user entry with the submitted text then one bot
entry — and ends with `isLoading` false, for every gateway outcome. -/
theorem C4_turn_atomicity (s : AppState) (fetch : FetchResult)
    (h : jsTrim s.input ≠ "") :
    ∃ t : JVal,
      (runSendMessage s fetch).messages =
        s.messages ++ [⟨Sender.user, JVal.str s.input⟩, ⟨Sender.bot, t⟩] ∧
      (runSendMessage s fetch).messages.length = s.messages.length + 2 ∧
      (runSendMessage s fetch).isLoading = false := by
  obtain ⟨t, hm, hl⟩ := turn_shape s fetch h
  exact ⟨t, hm, by rw [hm]; simp, hl⟩

/-- Witness for C4 at a transcript that already holds one entry, a server
error status, and an unparsable body. -/
theorem C4_turn_atomicity_witness :
    ∃ t : JVal,
      (runSendMessage ⟨[⟨Sender.bot, JVal.str "Oi"⟩], "Q", false, none⟩
          (FetchResult.response 500 none)).messages =
        [⟨Sender.bot, JVal.str "Oi"⟩] ++
          [⟨Sender.user, JVal.str "Q"⟩, ⟨Sender.bot, t⟩] ∧
      (runSendMessage ⟨[⟨Sender.bot, JVal.str "Oi"⟩], "Q", false, none⟩
          (FetchResult.response 500 none)).messages.length =
        ([⟨Sender.bot, JVal.str "Oi"⟩] : List ChatEntry).length + 2 ∧
      (runSendMessage ⟨[⟨Sender.bot, JVal.str "Oi"⟩], "Q", false, none⟩
          (FetchResult.response 500 none)).isLoading = false :=
  C4_turn_atomicity ⟨[⟨Sender.bot, JVal.str "Oi"⟩], "Q", false, none⟩
    (FetchResult.response 500 none) (by decide)

/-- Claim C5: while `isLoading` is true, neither the Enter key handler
nor the (disabled) send button emits any action: no second user entry is
appended and no second gateway call is issued before the in-flight turn
resolves. -/
theorem C5_busy_submit_dropped (s : AppState) (key : String)
    (fetch : FetchResult) (h : s.isLoading = true) :
    handleKeyDownTrace key s fetch = [] ∧ buttonClickTrace s fetch = [] := by
  constructor
  · simp [handleKeyDownTrace, h]
  · simp [buttonClickTrace, h]

/-- Witness for C5: Enter pressed and button clicked while a turn is in
flight. -/
theorem C5_busy_submit_dropped_witness :
    handleKeyDownTrace "Enter" ⟨[], "Hi", true, none⟩
      FetchResult.fetchError = [] ∧
    buttonClickTrace ⟨[], "Hi", true, none⟩ FetchResult.fetchError = [] :=
  C5_busy_submit_dropped ⟨[], "Hi", true, none⟩ "Enter"
    FetchResult.fetchError rfl

/-- Claim C6: the transcript is append-only — running any further
operations (submits with their resolutions, input edits, file
selections) only appends to `messages`, so its length never decreases
and every already-appended entry keeps its sender, text and position. -/
theorem C6_entries_append_only (s : AppState) (ops extra : List Op) :
    ∃ u, (runOps s (ops ++ extra)).messages =
      (runOps s ops).messages ++ u := by
  rw [runOps_append]
  exact runOps_messages extra (runOps s ops)

/-- Claim C7: a submit whose input trims to empty is a no-op — the state
(transcript, `input`, `isLoading`) is unchanged and the emitted trace is
empty, so no gateway call is issued. -/
theorem C7_blank_submit_noop (s : AppState) (fetch : FetchResult)
    (h : jsTrim s.input = "") :
    runSendMessage s fetch = s ∧ sendMessageTrace s.input fetch = [] := by
  constructor
  · simp [runSendMessage, sendMessageTrace, h, applyTrace]
  · simp [sendMessageTrace, h]

/-- Witness for C7 at whitespace-only input. -/
theorem C7_blank_submit_noop_witness :
    runSendMessage ⟨[], "   ", false, none⟩ FetchResult.fetchError =
      ⟨[], "   ", false, none⟩ ∧
    sendMessageTrace "   " FetchResult.fetchError = [] :=
  C7_blank_submit_noop ⟨[], "   ", false, none⟩ FetchResult.fetchError
    (by decide)

/-- Claim C8: on a valid submit the trace starts with the user-entry
append, then `setInput` of the empty string, then `setIsLoading true`,
then the POST — and no action after the POST touches `input`, so the
pending input is cleared at submission initiation, not when the response
arrives. -/
theorem C8_input_cleared_at_initiation (s : AppState) (fetch : FetchResult)
    (h : jsTrim s.input ≠ "") :
    ∃ tail : List Action,
      sendMessageTrace s.input fetch =
        Action.appendMessage ⟨Sender.user, JVal.str s.input⟩ ::
        Action.setInput "" ::
        Action.setIsLoading true ::
        Action.fetchChat "/api/chat" "user_message" s.input :: tail ∧
      tail.all (fun a => ! a.isSetInput) = true := by
  unfold sendMessageTrace
  cases fetch with
  | fetchError =>
      exact ⟨[Action.appendMessage ⟨Sender.bot, JVal.str serverErrorText⟩,
              Action.setIsLoading false], by simp [h], rfl⟩
  | response status body =>
      cases hok : httpOk status with
      | true =>
          cases body with
          | none =>
              exact ⟨[Action.appendMessage
                        ⟨Sender.bot, JVal.str serverErrorText⟩,
                      Action.setIsLoading false], by simp [h, hok], rfl⟩
          | some obj =>
              exact ⟨[Action.appendMessage
                        ⟨Sender.bot, getField obj "response"⟩,
                      Action.setIsLoading false], by simp [h, hok], rfl⟩
      | false =>
          exact ⟨[Action.appendMessage ⟨Sender.bot, JVal.str serverErrorText⟩,
                  Action.setIsLoading false], by simp [h, hok], rfl⟩

/-- Witness for C8 at input `Hey` and an ok response with an unparsable
body. -/
theorem C8_input_cleared_at_initiation_witness :
    ∃ tail : List Action,
      sendMessageTrace "Hey" (FetchResult.response 200 none) =
        Action.appendMessage ⟨Sender.user, JVal.str "Hey"⟩ ::
        Action.setInput "" ::
        Action.setIsLoading true ::
        Action.fetchChat "/api/chat" "user_message" "Hey" :: tail ∧
      tail.all (fun a => ! a.isSetInput) = true :=
  C8_input_cleared_at_initiation ⟨[], "Hey", false, none⟩
    (FetchResult.response 200 none) (by decide)

/-- Claim C9: the two `sendMessage` variants emit the same actions up to
the endpoint URL and request-body field name of the single POST (the
renaming `renameFetch`), and in particular produce identical transcripts
— including the identical fixed apology entry on failure — and identical
`isLoading` behaviour from any state and any gateway outcome. -/
theorem C9_variants_equivalent (input : String) (fetch : FetchResult)
    (s : AppState) :
    (sendMessageTrace input fetch).map renameFetch =
      sendMessageTraceDocker input fetch ∧
    applyTrace s (sendMessageTrace input fetch) =
      applyTrace s (sendMessageTraceDocker input fetch) := by
  have hmap : (sendMessageTrace input fetch).map renameFetch =
      sendMessageTraceDocker input fetch := by
    unfold sendMessageTrace sendMessageTraceDocker
    by_cases h : jsTrim input = ""
    · simp [h]
    · cases fetch with
      | fetchError => simp [h, renameFetch]
      | response status body =>
          cases hok : httpOk status with
          | true =>
              cases body with
              | none => simp [h, hok, renameFetch]
              | some obj => simp [h, hok, renameFetch]
          | false => simp [h, hok, renameFetch]
  exact ⟨hmap, by rw [← hmap, applyTrace_renameFetch]⟩

/-- Claim C10: a file-selection event only stores the selected file
reference — the transcript, the pending input and `isLoading` are
untouched, and the emitted trace holds no POST and no transcript
append. -/
theorem C10_file_change_frame (s : AppState) (files : List String) :
    (applyTrace s (handleFileChangeTrace files)).messages = s.messages ∧
    (applyTrace s (handleFileChangeTrace files)).input = s.input ∧
    (applyTrace s (handleFileChangeTrace files)).isLoading = s.isLoading ∧
    ((handleFileChangeTrace files).all fun a =>
        match a with
        | Action.fetchChat _ _ _ => false
        | Action.appendMessage _ => false
        | _ => true) = true := by
  cases files with
  | nil => exact ⟨rfl, rfl, rfl, rfl⟩
  | cons f rest => exact ⟨rfl, rfl, rfl, rfl⟩

end IaJu
